import Mathlib

/-!
Verification development for the gh-load-pull-request repository.

Shallow embedding of the core functions of `src/gh-load-pull-request.mjs`
and the backends module, together with theorems settling the frozen claims.

Modelling conventions:
* JavaScript strings are Lean `String`s; character-level scanning is done on
  `List Char` (`String.data`).
* Byte buffers are `List Nat`.
* Timestamps (ISO date strings run through `new Date(...)` only to be
  compared numerically) are modelled as `Int` epoch values.
* Network and process transports (`https.get`, the `gh` binary, Octokit) are
  oracles passed in as explicit function/record parameters.
* The JavaScript `URL` constructor is an oracle `parseUrl : String → Option JsUrl`
  (it throws on relative references, which callers state as a hypothesis).
-/

/-! ## List-of-characters utilities (JS string primitives) -/

/-- Helper: `stripLit pat l` returns `some rest` when `l = pat ++ rest`, else `none`.
Models a literal prefix test (the anchored part of a JS regex match). -/
def stripLit : List Char → List Char → Option (List Char)
  | [], l => some l
  | _ :: _, [] => none
  | p :: ps, c :: cs => if p == c then stripLit ps cs else none

/-- Helper: `listContains l pat` models JavaScript `String.prototype.includes`:
`pat` occurs as a contiguous substring of `l`. -/
def listContains : List Char → List Char → Bool
  | [], pat => (stripLit pat []).isSome
  | c :: t, pat => (stripLit pat (c :: t)).isSome || listContains t pat

/-! ## URL Resolver (`parsePrUrl`, source lines 1024-1056) -/

/-- Result of `parsePrUrl`. -/
structure ParsedPr where
  owner : String
  repo : String
  prNumber : Nat
  deriving DecidableEq, Repr

/-- JS `parseInt(digits, 10)` on a string of decimal digits. -/
def digitsToNat (l : List Char) : Nat :=
  l.foldl (fun acc c => acc * 10 + (c.toNat - 48)) 0

/-- The literal `github.com/` scanned for by the first regex. -/
def ghLit : List Char := ("github.com/").data

/-- The literal `/pull/` required after the repo segment. -/
def pullLit : List Char := ("/pull/").data

/-- Attempt the body of `/github\.com\/([^/]+)\/([^/]+)\/pull\/(\d+)/` after its
literal prefix has been consumed: greedy `[^/]+` owner, `/`, greedy `[^/]+` repo,
literal `/pull/`, then a non-empty greedy digit run. -/
def ghParse (l : List Char) : Option (List Char × List Char × List Char) :=
  if (l.takeWhile (fun c => c != '/')).isEmpty then none else
  match l.dropWhile (fun c => c != '/') with
  | '/' :: l2 =>
    if (l2.takeWhile (fun c => c != '/')).isEmpty then none else
    match stripLit pullLit (l2.dropWhile (fun c => c != '/')) with
    | some l4 =>
      if (l4.takeWhile Char.isDigit).isEmpty then none
      else some (l.takeWhile (fun c => c != '/'), l2.takeWhile (fun c => c != '/'),
        l4.takeWhile Char.isDigit)
    | none => none
  | _ => none

/-- One attempt of the unanchored first regex at the current position. -/
def ghTryHere (l : List Char) : Option (List Char × List Char × List Char) :=
  match stripLit ghLit l with
  | some rest => ghParse rest
  | none => none

/-- Leftmost-match scan of the unanchored first regex over the whole string. -/
def ghFind : List Char → Option (List Char × List Char × List Char)
  | [] => none
  | c :: t =>
    match ghTryHere (c :: t) with
    | some res => some res
    | none => ghFind t

/-- Anchored shorthand `/^([^/]+)\/([^#/]+)#(\d+)$/` (`owner/repo#123`). -/
def shortMatch (l : List Char) : Option (List Char × List Char × List Char) :=
  if (l.takeWhile (fun c => c != '/')).isEmpty then none else
  match l.dropWhile (fun c => c != '/') with
  | '/' :: l2 =>
    if (l2.takeWhile (fun c => c != '#' && c != '/')).isEmpty then none else
    match l2.dropWhile (fun c => c != '#' && c != '/') with
    | '#' :: l4 =>
      if (l4.takeWhile Char.isDigit).isEmpty then none
      else if (l4.dropWhile Char.isDigit).isEmpty then
        some (l.takeWhile (fun c => c != '/'),
          l2.takeWhile (fun c => c != '#' && c != '/'), l4.takeWhile Char.isDigit)
      else none
    | _ => none
  | _ => none

/-- Anchored shorthand `/^([^/]+)\/([^/]+)\/(\d+)$/` (`owner/repo/123`). -/
def altMatch (l : List Char) : Option (List Char × List Char × List Char) :=
  if (l.takeWhile (fun c => c != '/')).isEmpty then none else
  match l.dropWhile (fun c => c != '/') with
  | '/' :: l2 =>
    if (l2.takeWhile (fun c => c != '/')).isEmpty then none else
    match l2.dropWhile (fun c => c != '/') with
    | '/' :: l4 =>
      if (l4.takeWhile Char.isDigit).isEmpty then none
      else if (l4.dropWhile Char.isDigit).isEmpty then
        some (l.takeWhile (fun c => c != '/'), l2.takeWhile (fun c => c != '/'),
          l4.takeWhile Char.isDigit)
      else none
    | _ => none
  | _ => none

/-- Embedding of `parsePrUrl` (source lines 1024-1056): full-URL regex first, then the
`owner/repo#123` shorthand, then the `owner/repo/123` shorthand, else `null`. -/
def parsePrUrl (url : String) : Option ParsedPr :=
  match ghFind url.data with
  | some (o, r, d) => some ⟨String.mk o, String.mk r, digitsToNat d⟩
  | none =>
    match shortMatch url.data with
    | some (o, r, d) => some ⟨String.mk o, String.mk r, digitsToNat d⟩
    | none =>
      match altMatch url.data with
      | some (o, r, d) => some ⟨String.mk o, String.mk r, digitsToNat d⟩
      | none => none

/-! ## Image Validator (`validateImageBuffer`, source lines 1058-1120) -/

/-- Result of `validateImageBuffer`: `{valid:true, format}` or `{valid:false, reason}`. -/
inductive ImgValidation where
  | ok (format : String)
  | bad (reason : String)
  deriving DecidableEq, Repr

/-- The fixed magic-byte table, in source insertion order (lines 1058-1066). -/
def imageMagicBytes : List (String × List Nat) :=
  [(("png"), [0x89, 0x50, 0x4e, 0x47]),
   (("jpg"), [0xff, 0xd8, 0xff]),
   (("gif"), [0x47, 0x49, 0x46, 0x38]),
   (("webp"), [0x52, 0x49, 0x46, 0x46]),
   (("bmp"), [0x42, 0x4d]),
   (("ico"), [0x00, 0x00, 0x01, 0x00]),
   (("svg"), [0x3c, 0x3f, 0x78, 0x6d, 0x6c])]

/-- First table entry whose magic bytes prefix the buffer head (first match wins). -/
def findMagic : List (String × List Nat) → List Nat → Option String
  | [], _ => none
  | (fmt, magic) :: rest, bytes =>
    if magic.isPrefixOf bytes then some fmt else findMagic rest bytes

/-- Embedding of `validateImageBuffer` (lines 1074-1120): size check, HTML-marker rejection,
magic-byte table, bare `<svg` check, then benefit-of-the-doubt `unknown`. -/
def validateImageBuffer (buffer : List Nat) : ImgValidation :=
  if buffer.length < 4 then .bad ("Buffer too small")
  else if ([0x3c, 0x21].isPrefixOf (buffer.take 8)
      || [0x3c, 0x68, 0x74, 0x6d, 0x6c].isPrefixOf (buffer.take 8)
      || [0x3c, 0x48, 0x54, 0x4d, 0x4c].isPrefixOf (buffer.take 8)) then
    .bad ("Downloaded file is HTML (likely error page)")
  else
    match findMagic imageMagicBytes (buffer.take 8) with
    | some fmt => .ok fmt
    | none =>
      if [0x3c, 0x73, 0x76, 0x67].isPrefixOf (buffer.take 8) then .ok ("svg")
      else .ok ("unknown")

/-! ## Extension selection (`getExtensionFromFormat`, source lines 1128-1167) -/

/-- The parts of a parsed JS `URL` object that the program reads. -/
structure JsUrl where
  hostname : String
  pathname : String
  deriving DecidableEq, Repr

/-- Fixed format→extension table (lines 1129-1137). -/
def formatExtensions : List (String × String) :=
  [(("png"), (".png")), (("jpg"), (".jpg")), (("gif"), (".gif")),
   (("webp"), (".webp")), (("bmp"), (".bmp")), (("ico"), (".ico")),
   (("svg"), (".svg"))]

/-- Extensions accepted from the URL path (lines 1148-1158). -/
def knownImageExts : List String :=
  [(".png"), (".jpg"), (".jpeg"), (".gif"), (".webp"), (".bmp"), (".ico"), (".svg")]

/-- Basename of a path (text after the last `/`). -/
def afterLastSlash (l : List Char) : List Char :=
  l.foldl (fun acc c => if c = '/' then [] else acc ++ [c]) []

/-- Suffix of the list starting at its last `.`, if any. -/
def lastDotSuffix : List Char → Option (List Char)
  | [] => none
  | c :: t =>
    match lastDotSuffix t with
    | some s => some s
    | none => if c = '.' then some (c :: t) else none

/-- Node `path.extname`: extension of the basename, empty when the only dot
is the basename's first character. -/
def extname (pathname : List Char) : List Char :=
  match afterLastSlash pathname with
  | [] => []
  | _ :: t =>
    match lastDotSuffix t with
    | some s => s
    | none => []

/-- Embedding of `getExtensionFromFormat` (lines 1128-1167): table hit, else lower-cased
URL-path extension (`.jpeg` normalised to `.jpg`), else `.png`.  The JS `URL`
constructor is the `parseUrl` oracle (its `catch` branch is the `none` case). -/
def getExtensionFromFormat (parseUrl : String → Option JsUrl)
    (format url : String) : String :=
  match formatExtensions.lookup format with
  | some ext => ext
  | none =>
    match parseUrl url with
    | some u =>
      if (extname u.pathname.data).isEmpty then (".png")
      else if knownImageExts.contains (String.mk ((extname u.pathname.data).map Char.toLower)) then
        (if String.mk ((extname u.pathname.data).map Char.toLower) = (".jpeg") then (".jpg")
         else String.mk ((extname u.pathname.data).map Char.toLower))
      else (".png")
    | none => (".png")

/-! ## Asset Fetcher (`downloadFile`, source lines 1176-1227) -/

/-- A transport-level HTTP response: status, optional `Location` header, body bytes. -/
structure HttpResponse where
  statusCode : Nat
  location : Option String
  body : List Nat
  deriving DecidableEq, Repr

/-- Request headers built at lines 1186-1193: fixed `User-Agent`, plus
`Authorization: token <t>` exactly when the token is truthy and the URL's
hostname contains the literal substring `github`. -/
def downloadHeaders (hostname token : String) : List (String × String) :=
  (("User-Agent"), ("gh-load-pull-request")) ::
    (if token != ("") && listContains hostname.data (("github").data) then
      [(("Authorization"), ("token ") ++ token)]
    else [])

/-- The redirect test at lines 1197-1201: 3xx status and a truthy `Location`. -/
def isRedirect (res : HttpResponse) : Bool :=
  decide (300 ≤ res.statusCode) && decide (res.statusCode < 400) &&
    (match res.location with
     | some l => l != ("")
     | none => false)

/-- The `Location` header value followed on redirect. -/
def redirectTarget (res : HttpResponse) : String :=
  match res.location with
  | some l => l
  | none => ("")

/-- Embedding of `downloadFile` (lines 1176-1227).  `world` is the network oracle taking the
request URL and headers; `parseUrl` models the JS `URL` constructor (the
`none` case is its thrown `Invalid URL` TypeError, surfaced through the
promise rejection).  Redirects recurse with decremented fuel; a non-redirect
non-200 status rejects with `HTTP <code>`; 200 resolves with the body. -/
def downloadFile (parseUrl : String → Option JsUrl)
    (world : String → List (String × String) → HttpResponse)
    (token : String) : String → Nat → Except String (List Nat)
  | _, 0 => .error ("Too many redirects")
  | url, fuel + 1 =>
    match parseUrl url with
    | none => .error ("Invalid URL")
    | some u =>
      if isRedirect (world url (downloadHeaders u.hostname token)) then
        downloadFile parseUrl world token
          (redirectTarget (world url (downloadHeaders u.hostname token))) fuel
      else if (world url (downloadHeaders u.hostname token)).statusCode ≠ 200 then
        .error (("HTTP ") ++ toString (world url (downloadHeaders u.hostname token)).statusCode)
      else .ok (world url (downloadHeaders u.hostname token)).body

/-! ## Markdown image extraction (`extractMarkdownImageUrls`, source lines 1234-1255) -/

/-- One extracted image reference `{url, alt}`. -/
structure ImgRef where
  alt : String
  url : String
  deriving DecidableEq, Repr

/-- ASCII subset of the JS `\s` class (sufficient for the bodies modelled here). -/
def isJsSpace (c : Char) : Bool :=
  c = ' ' || c = '\t' || c = '\n' || c = '\r' || c = '\x0b' || c = '\x0c'

/-- Match the optional quoted title plus closing parenthesis
`(?:\s+"[^"]*")?\)` when the title group is present. -/
def mdAfterTitle (l : List Char) : Option (List Char) :=
  if (l.takeWhile isJsSpace).isEmpty then none
  else
    match l.dropWhile isJsSpace with
    | '"' :: rest =>
      match rest.dropWhile (fun c => c != '"') with
      | '"' :: rest2 =>
        match rest2 with
        | ')' :: rest3 => some rest3
        | _ => none
      | _ => none
    | _ => none

/-- One attempt of `/!\[([^\]]*)\]\(([^)\s]+)(?:\s+"[^"]*")?\)/` at the current
position; on success returns the alt text, the url, and the remainder after
the match (the regex `lastIndex` advance). -/
def mdTryHere (l : List Char) : Option (String × String × List Char) :=
  match l with
  | '!' :: '[' :: rest1 =>
    match rest1.dropWhile (fun c => c != ']') with
    | ']' :: '(' :: rest2 =>
      if (rest2.takeWhile (fun c => c != ')' && !isJsSpace c)).isEmpty then none
      else
        match mdAfterTitle (rest2.dropWhile (fun c => c != ')' && !isJsSpace c)) with
        | some rest4 =>
          some (String.mk (rest1.takeWhile (fun c => c != ']')),
            String.mk (rest2.takeWhile (fun c => c != ')' && !isJsSpace c)), rest4)
        | none =>
          match rest2.dropWhile (fun c => c != ')' && !isJsSpace c) with
          | ')' :: rest4 =>
            some (String.mk (rest1.takeWhile (fun c => c != ']')),
              String.mk (rest2.takeWhile (fun c => c != ')' && !isJsSpace c)), rest4)
          | _ => none
    | _ => none
  | _ => none

/-- Global scan of the markdown-image regex (fuel is the list length; every
match consumes at least one character, so the fuel never runs out early). -/
def scanMd : Nat → List Char → List ImgRef
  | 0, _ => []
  | _, [] => []
  | fuel + 1, c :: t =>
    match mdTryHere (c :: t) with
    | some (alt, url, rest) => ⟨alt, url⟩ :: scanMd fuel rest
    | none => scanMd fuel t

/-- Case-insensitive literal prefix (the `/i` flag on the HTML regex). -/
def stripLitCI : List Char → List Char → Option (List Char)
  | [], l => some l
  | _ :: _, [] => none
  | p :: ps, c :: cs => if p.toLower == c.toLower then stripLitCI ps cs else none

/-- Match `src=["']([^"']+)["'][^>]*>` (case-insensitive `src=`), returning the
url and the remainder after the closing `>`. -/
def htmlSrcPart (l : List Char) : Option (String × List Char) :=
  match stripLitCI (("src=")).data l with
  | none => none
  | some r1 =>
    match r1 with
    | q :: r2 =>
      if q = '"' || q = '\'' then
        if (r2.takeWhile (fun c => c != '"' && c != '\'')).isEmpty then none
        else
          match r2.dropWhile (fun c => c != '"' && c != '\'') with
          | _ :: r3 =>
            match r3.dropWhile (fun c => c != '>') with
            | '>' :: r4 =>
              some (String.mk (r2.takeWhile (fun c => c != '"' && c != '\'')), r4)
            | _ => none
          | [] => none
      else none
    | [] => none

/-- Backtracking over the greedy `[^>]+` gap between `<img` and `src=`: the JS
engine tries the longest gap first. -/
def htmlGapScan (rest : List Char) : Nat → Option (String × List Char)
  | 0 => none
  | g + 1 =>
    match htmlSrcPart (rest.drop (g + 1)) with
    | some res => some res
    | none => htmlGapScan rest g

/-- One attempt of `/<img[^>]+src=["']([^"']+)["'][^>]*>/i` at the current position. -/
def htmlTryHere (l : List Char) : Option (String × List Char) :=
  match stripLitCI (("<img")).data l with
  | none => none
  | some rest => htmlGapScan rest (rest.takeWhile (fun c => c != '>')).length

/-- Global scan of the HTML `<img>` regex. -/
def scanHtml : Nat → List Char → List ImgRef
  | 0, _ => []
  | _, [] => []
  | fuel + 1, c :: t =>
    match htmlTryHere (c :: t) with
    | some (url, rest) => ⟨(""), url⟩ :: scanHtml fuel rest
    | none => scanHtml fuel t

/-- Embedding of `extractMarkdownImageUrls` (lines 1234-1255): all markdown-style matches in
text order, then all HTML-style matches in text order. -/
def extractMarkdownImageUrls (content : String) : List ImgRef :=
  if content = ("") then []
  else scanMd content.data.length content.data ++ scanHtml content.data.length content.data

/-! ## URL replacement (`content.split(url).join(relativePath)`, line 1308) -/

/-- Fuel-indexed left-to-right non-overlapping literal replacement. -/
def replaceAllAux : Nat → List Char → List Char → List Char → List Char
  | 0, l, _, _ => l
  | fuel + 1, l, pat, rep =>
    match stripLit pat l with
    | some rest => rep ++ replaceAllAux fuel rest pat rep
    | none =>
      match l with
      | [] => []
      | c :: t => c :: replaceAllAux fuel t pat rep

/-- JS `s.split(pat).join(rep)` for non-empty `pat`: every literal occurrence
of `pat` replaced left-to-right without overlap.  (The extraction regex makes
the url non-empty, so the empty-pattern split never arises.) -/
def replaceAll (s pat rep : String) : String :=
  if pat = ("") then s
  else String.mk (replaceAllAux s.data.length s.data pat.data rep.data)

/-! ## Image localization (`downloadImages`, source lines 1265-1319) -/

/-- A Downloaded Image Record (line 1300-1305). -/
structure ImgRecord where
  originalUrl : String
  localPath : String
  relativePath : String
  format : String
  deriving DecidableEq, Repr

/-- Result of one `downloadImages` call: the rewritten text, the records in
push order, and the file writes (`fs.writeFile`) in execution order. -/
structure DlResult where
  content : String
  downloadedImages : List ImgRecord
  writes : List (String × List Nat)
  deriving DecidableEq, Repr

/-- The `for (const { url } of images)` loop of `downloadImages`
(lines 1282-1316): fetch, validate, name `image-<counter><ext>`, write, record,
replace every occurrence, increment; any fetch error or invalid buffer skips
the entry without touching the counter or the text. -/
def downloadImagesLoop (parseUrl : String → Option JsUrl)
    (world : String → List (String × String) → HttpResponse)
    (imagesDir token : String) :
    List ImgRef → String → Nat → List ImgRecord → List (String × List Nat) → DlResult
  | [], content, _, records, writes => ⟨content, records.reverse, writes.reverse⟩
  | img :: rest, content, counter, records, writes =>
    match downloadFile parseUrl world token img.url 5 with
    | .error _ =>
      downloadImagesLoop parseUrl world imagesDir token rest content counter records writes
    | .ok buffer =>
      match validateImageBuffer buffer with
      | .bad _ =>
        downloadImagesLoop parseUrl world imagesDir token rest content counter records writes
      | .ok fmt =>
        downloadImagesLoop parseUrl world imagesDir token rest
          (replaceAll content img.url
            (("./images/image-") ++ toString counter ++ getExtensionFromFormat parseUrl fmt img.url))
          (counter + 1)
          (⟨img.url,
            imagesDir ++ ("/image-") ++ toString counter ++ getExtensionFromFormat parseUrl fmt img.url,
            ("./images/image-") ++ toString counter ++ getExtensionFromFormat parseUrl fmt img.url,
            fmt⟩ :: records)
          ((imagesDir ++ ("/image-") ++ toString counter ++ getExtensionFromFormat parseUrl fmt img.url,
            buffer) :: writes)

/-- Embedding of `downloadImages` (lines 1265-1319).  The per-call `imageCounter` starts at
1 here, exactly as in the source. -/
def downloadImages (parseUrl : String → Option JsUrl)
    (world : String → List (String × String) → HttpResponse)
    (content imagesDir token : String) : DlResult :=
  if content = ("") then ⟨content, [], []⟩
  else
    match extractMarkdownImageUrls content with
    | [] => ⟨content, [], []⟩
    | img :: rest =>
      downloadImagesLoop parseUrl world imagesDir token (img :: rest) content 1 [] []

/-! ## Canonical PR Dataset (shape produced by both adapters, consumed by the
renderer; nested `{login}` objects are flattened to their login string and
date strings to `Int` epoch values, as per the conventions above). -/

/-- A top-level issue comment. -/
structure CommentEntry where
  id : Nat
  userLogin : String
  body : String
  createdAt : Int
  deriving DecidableEq, Repr

/-- A review; `submittedAt = none` models a pending review's `null`. -/
structure ReviewEntry where
  id : Nat
  userLogin : String
  state : String
  body : String
  submittedAt : Option Int
  deriving DecidableEq, Repr

/-- An inline (code) review comment. -/
structure ReviewCommentEntry where
  id : Nat
  userLogin : String
  body : String
  path : String
  line : Option Nat
  createdAt : Int
  diffHunk : Option String
  pullRequestReviewId : Option Nat
  deriving DecidableEq, Repr

/-- A changed file. -/
structure FileEntry where
  filename : String
  status : String
  additions : Nat
  deletions : Nat
  previousFilename : Option String
  patch : String
  deriving DecidableEq, Repr

/-- A commit. -/
structure CommitEntry where
  sha : String
  message : String
  authorName : String
  authorDate : Int
  htmlUrl : String
  authorLogin : Option String
  deriving DecidableEq, Repr

/-- The `pr` object of the canonical dataset. -/
structure PrData where
  number : Nat
  title : String
  state : String
  draft : Bool
  merged : Bool
  htmlUrl : String
  userLogin : String
  createdAt : Int
  updatedAt : Int
  mergedAt : Option Int
  closedAt : Option Int
  mergedByLogin : Option String
  baseRef : String
  baseSha : String
  headRef : String
  headSha : String
  additions : Nat
  deletions : Nat
  changedFiles : Nat
  labels : List (String × String)
  assignees : List String
  requestedReviewers : List String
  milestone : Option (String × Nat)
  body : String
  deriving DecidableEq, Repr

/-- The Canonical PR Dataset `{pr, files, comments, reviewComments, reviews, commits}`. -/
structure Dataset where
  pr : PrData
  files : List FileEntry
  comments : List CommentEntry
  reviewComments : List ReviewCommentEntry
  reviews : List ReviewEntry
  commits : List CommitEntry
  deriving DecidableEq, Repr

/-! ## Timeline merger (`convertToMarkdown`, source lines 1386-1414) -/

/-- One tagged timeline event (`{type, timestamp, data}` at lines 1390-1405). -/
inductive TLEvent where
  | comment (c : CommentEntry)
  | review (r : ReviewEntry)
  deriving DecidableEq, Repr

/-- The numeric timestamp the comparator `a.timestamp - b.timestamp` reads. -/
def TLEvent.timestamp : TLEvent → Int
  | .comment c => c.createdAt
  | .review r => r.submittedAt.getD 0

/-- Comparator order of the timeline sort. -/
def tlLE (a b : TLEvent) : Prop := a.timestamp ≤ b.timestamp

instance : DecidableRel tlLE := fun a b => Int.decLe a.timestamp b.timestamp

instance : IsTotal TLEvent tlLE := ⟨fun a b => Int.le_total a.timestamp b.timestamp⟩

instance : IsTrans TLEvent tlLE := ⟨fun _ _ _ => Int.le_trans⟩

/-- Event construction (lines 1388-1406): every comment is pushed, then every
review with a non-null `submitted_at`; pending reviews are never pushed. -/
def buildTimeline (comments : List CommentEntry) (reviews : List ReviewEntry) :
    List TLEvent :=
  comments.map TLEvent.comment
    ++ (reviews.filter (fun r => r.submittedAt.isSome)).map TLEvent.review

/-- The sorted conversation sequence (line 1408); `Array.prototype.sort` is
stable and ascending under the numeric comparator, modelled by a stable
insertion sort. -/
def conversationTimeline (comments : List CommentEntry) (reviews : List ReviewEntry) :
    List TLEvent :=
  List.insertionSort tlLE (buildTimeline comments reviews)

/-! ## The renderer's image-localization pipeline (`convertToMarkdown`,
source lines 1349-1560).  The markdown text assembly (headings, metadata,
`formatDate`) is elided; what is embedded is exactly the sequence of
`processContent` calls — PR body first, then each sorted timeline event's
body (with a review's inline comments immediately after its body), then
every standalone inline comment — each call being a fresh `downloadImages`
invocation, and the accumulation of `allDownloadedImages` in that order. -/

/-- Embedding of `processContent` (lines 1326-1337) guarded by the caller's
`downloadImagesFlag && body` test: a no-op unless the flag is set and the
body is non-empty. -/
def processBlock (parseUrl : String → Option JsUrl)
    (world : String → List (String × String) → HttpResponse)
    (flag : Bool) (imagesDir token : String) (s : String) : DlResult :=
  if flag && s != ("") then downloadImages parseUrl world s imagesDir token
  else ⟨s, [], []⟩

/-- JS truthiness of `rc.pull_request_review_id` negated (line 1518):
`null`/`undefined`/`0` all make an inline comment standalone. -/
def isStandaloneRC (rc : ReviewCommentEntry) : Bool :=
  match rc.pullRequestReviewId with
  | none => true
  | some v => v == 0

/-- Image processing of a list of inline review comments, in order
(lines 1484-1499 for a review's inline comments, 1522-1537 for standalone
ones): returns processed bodies, accumulated records, accumulated writes. -/
def processReviewCommentsBlocks (parseUrl : String → Option JsUrl)
    (world : String → List (String × String) → HttpResponse)
    (flag : Bool) (imagesDir token : String) :
    List ReviewCommentEntry → List String × List ImgRecord × List (String × List Nat)
  | [] => ([], [], [])
  | rc :: rest =>
    match processBlock parseUrl world flag imagesDir token rc.body,
        processReviewCommentsBlocks parseUrl world flag imagesDir token rest with
    | res, (bs, recs, ws) =>
      (res.content :: bs, res.downloadedImages ++ recs, res.writes ++ ws)

/-- Image processing of the sorted timeline events, in order
(lines 1413-1514): a comment contributes its body; a review contributes its
body followed by the bodies of the inline comments whose
`pull_request_review_id === review.id`. -/
def processEventsBlocks (parseUrl : String → Option JsUrl)
    (world : String → List (String × String) → HttpResponse)
    (flag : Bool) (imagesDir token : String)
    (reviewComments : List ReviewCommentEntry) :
    List TLEvent → List String × List ImgRecord × List (String × List Nat)
  | [] => ([], [], [])
  | .comment c :: rest =>
    match processBlock parseUrl world flag imagesDir token c.body,
        processEventsBlocks parseUrl world flag imagesDir token reviewComments rest with
    | res, (bs, recs, ws) =>
      (res.content :: bs, res.downloadedImages ++ recs, res.writes ++ ws)
  | .review r :: rest =>
    match processBlock parseUrl world flag imagesDir token r.body,
        processReviewCommentsBlocks parseUrl world flag imagesDir token
          (reviewComments.filter (fun rc => rc.pullRequestReviewId == some r.id)),
        processEventsBlocks parseUrl world flag imagesDir token reviewComments rest with
    | res, (ibs, irecs, iws), (bs, recs, ws) =>
      (res.content :: ibs ++ bs, res.downloadedImages ++ irecs ++ recs,
        res.writes ++ iws ++ ws)

/-- Result of the render call's image pass. -/
structure RenderImagesResult where
  prBody : String
  bodies : List String
  downloadedImages : List ImgRecord
  writes : List (String × List Nat)
  deriving DecidableEq, Repr

/-- The whole image pass of one `convertToMarkdown` call. -/
def renderImagesPass (parseUrl : String → Option JsUrl)
    (world : String → List (String × String) → HttpResponse)
    (flag : Bool) (imagesDir token : String) (d : Dataset) : RenderImagesResult :=
  match processBlock parseUrl world flag imagesDir token d.pr.body,
      processEventsBlocks parseUrl world flag imagesDir token d.reviewComments
        (conversationTimeline d.comments d.reviews),
      processReviewCommentsBlocks parseUrl world flag imagesDir token
        (d.reviewComments.filter isStandaloneRC) with
  | pres, (ebs, erecs, ews), (sbs, srecs, sws) =>
    ⟨pres.content, ebs ++ sbs, pres.downloadedImages ++ erecs ++ srecs,
      pres.writes ++ ews ++ sws⟩

/-! ## Backend adapters (backends module).  Raw `gh pr view --json` shape. -/

/-- A raw `{login}` actor object. -/
structure GhRawActor where
  login : String
  deriving DecidableEq, Repr

/-- A raw label. -/
structure GhRawLabel where
  name : String
  color : Option String
  deriving DecidableEq, Repr

/-- A raw milestone. -/
structure GhRawMilestone where
  title : String
  number : Nat
  deriving DecidableEq, Repr

/-- A raw file entry (`{path, additions, deletions}`). -/
structure GhRawFile where
  path : String
  additions : Nat
  deletions : Nat
  deriving DecidableEq, Repr

/-- A raw commit author (`{name, login}`). -/
structure GhRawCommitAuthor where
  name : Option String
  login : Option String
  deriving DecidableEq, Repr

/-- A raw commit. -/
structure GhRawCommit where
  oid : String
  messageHeadline : String
  messageBody : Option String
  authors : List GhRawCommitAuthor
  authoredDate : Int
  deriving DecidableEq, Repr

/-- A raw issue comment. -/
structure GhRawComment where
  id : Nat
  author : Option GhRawActor
  body : String
  createdAt : Int
  deriving DecidableEq, Repr

/-- A raw review. -/
structure GhRawReview where
  id : Nat
  author : Option GhRawActor
  state : String
  body : String
  submittedAt : Option Int
  deriving DecidableEq, Repr

/-- The JSON object produced by `gh pr view --json <fields>`; collections are
`Option` so that a field not requested (e.g. `reviews` when
`includeReviews = false`) is `none`, matching `undefined` in JS. -/
structure GhRawData where
  number : Nat
  title : String
  state : String
  isDraft : Bool
  body : String
  url : String
  author : GhRawActor
  createdAt : Int
  updatedAt : Int
  mergedAt : Option Int
  closedAt : Option Int
  mergedBy : Option GhRawActor
  baseRefName : String
  baseRefOid : String
  headRefName : String
  headRefOid : String
  additions : Nat
  deletions : Nat
  changedFiles : Nat
  labels : Option (List GhRawLabel)
  assignees : Option (List GhRawActor)
  reviewRequests : Option (List GhRawActor)
  milestone : Option GhRawMilestone
  files : Option (List GhRawFile)
  commits : Option (List GhRawCommit)
  comments : Option (List GhRawComment)
  reviews : Option (List GhRawReview)
  deriving Repr

/-- A raw inline review comment from `gh api .../pulls/<n>/comments`. -/
structure GhRawRC where
  id : Nat
  user : Option GhRawActor
  body : String
  path : String
  line : Option Nat
  createdAt : Int
  diffHunk : Option String
  pullRequestReviewId : Option Nat
  deriving DecidableEq, Repr

/-- JS `x?.login || 'unknown'`. -/
def loginOrUnknown (a : Option GhRawActor) : String :=
  match a with
  | some u => if u.login = ("") then ("unknown") else u.login
  | none => ("unknown")

/-- File-status heuristic of `transformGhPrData` (lines 118-123 of the
backends module): `added` when additions>0 and deletions=0, `removed` when
additions=0 and deletions>0, else `modified`. -/
def ghFileStatus (additions deletions : Nat) : String :=
  if 0 < additions ∧ deletions = 0 then ("added")
  else if additions = 0 ∧ 0 < deletions then ("removed")
  else ("modified")

/-- Embedding of `transformGhPrData` (backends module lines 76-173): maps the `gh` JSON
shape into the canonical dataset; `reviewComments` starts empty and is
overwritten by the caller. -/
def transformGhPrData (ghData : GhRawData) (owner repo : String) : Dataset :=
  { pr :=
    { number := ghData.number
      title := ghData.title
      state := String.mk (ghData.state.data.map Char.toLower)
      draft := ghData.isDraft
      merged := ghData.state == ("MERGED")
      htmlUrl := ghData.url
      userLogin := ghData.author.login
      createdAt := ghData.createdAt
      updatedAt := ghData.updatedAt
      mergedAt := ghData.mergedAt
      closedAt := ghData.closedAt
      mergedByLogin := ghData.mergedBy.map GhRawActor.login
      baseRef := ghData.baseRefName
      baseSha := ghData.baseRefOid
      headRef := ghData.headRefName
      headSha := ghData.headRefOid
      additions := ghData.additions
      deletions := ghData.deletions
      changedFiles := ghData.changedFiles
      labels := (ghData.labels.getD []).map fun l => (l.name, l.color.getD (""))
      assignees := (ghData.assignees.getD []).map GhRawActor.login
      requestedReviewers := (ghData.reviewRequests.getD []).map GhRawActor.login
      milestone := ghData.milestone.map fun m => (m.title, m.number)
      body := ghData.body }
    files := (ghData.files.getD []).map fun f =>
      { filename := f.path
        status := ghFileStatus f.additions f.deletions
        additions := f.additions
        deletions := f.deletions
        previousFilename := none
        patch := ("") }
    comments := (ghData.comments.getD []).map fun c =>
      { id := c.id
        userLogin := loginOrUnknown c.author
        body := c.body
        createdAt := c.createdAt }
    reviewComments := []
    reviews := (ghData.reviews.getD []).map fun r =>
      { id := r.id
        userLogin := loginOrUnknown r.author
        state := r.state
        body := r.body
        submittedAt := r.submittedAt }
    commits := (ghData.commits.getD []).map fun c =>
      { sha := c.oid
        message := (c.messageHeadline ++ ("\n\n") ++ (c.messageBody.getD (""))).trim
        authorName :=
          match c.authors.head? with
          | some a =>
            (match a.name with
             | some nm => if nm = ("") then ("unknown") else nm
             | none => ("unknown"))
          | none => ("unknown")
        authorDate := c.authoredDate
        htmlUrl := ("https://github.com/") ++ owner ++ ("/") ++ repo
          ++ ("/commit/") ++ c.oid
        authorLogin :=
          match c.authors.head? with
          | some a =>
            (match a.login with
             | some lg => if lg = ("") then none else some lg
             | none => none)
          | none => none } }

/-- The field list built at backends lines 196-227: 26 base fields plus
`reviews` exactly when `includeReviews` is set. -/
def ghJsonFields (includeReviews : Bool) : List String :=
  [("number"), ("title"), ("state"), ("isDraft"), ("body"), ("url"),
   ("author"), ("createdAt"), ("updatedAt"), ("mergedAt"), ("closedAt"),
   ("mergedBy"), ("baseRefName"), ("baseRefOid"), ("headRefName"),
   ("headRefOid"), ("additions"), ("deletions"), ("changedFiles"),
   ("labels"), ("assignees"), ("reviewRequests"), ("milestone"),
   ("files"), ("commits"), ("comments")]
    ++ (if includeReviews then [("reviews")] else [])

/-- The `gh` external tool, abstracted: the structured `pr view` call keyed by
the requested field list, and the `gh api .../pulls/<n>/comments` passthrough. -/
structure GhCli where
  prView : List String → Except String GhRawData
  pullsComments : Except String (List GhRawRC)

/-- Error classification of the gh adapter's catch block (backends
lines 278-294). -/
def classifyGhError (owner repo : String) (prNumber : Nat) (e : String) : String :=
  if listContains e.data (("not found")).data
      || listContains e.data (("Could not resolve")).data then
    ("Pull request not found: ") ++ owner ++ ("/") ++ repo ++ ("#") ++ toString prNumber
  else if listContains e.data (("auth")).data || listContains e.data (("401")).data then
    ("Authentication failed. Please run \x22gh auth login\x22 to authenticate")
  else
    ("Failed to fetch pull request via gh CLI: ") ++ e

/-- Map one raw inline review comment (backends lines 254-263). -/
def mapGhRawRC (c : GhRawRC) : ReviewCommentEntry :=
  { id := c.id
    userLogin := loginOrUnknown c.user
    body := c.body
    path := c.path
    line := c.line
    createdAt := c.createdAt
    diffHunk := c.diffHunk
    pullRequestReviewId := c.pullRequestReviewId }

/-- Core of `loadPullRequestWithGh` (backends lines 184-295) over the fields
the function actually destructures.  Returns the result and the `gh`
command lines issued, in order.  A failing review-comments call is caught
and yields an empty sequence; a failing primary call is classified and no
second command is issued. -/
def ghLoadCore (cli : GhCli) (owner repo : String) (prNumber : Nat)
    (includeReviews : Bool) : Except String Dataset × List String :=
  match cli.prView (ghJsonFields includeReviews) with
  | .error e =>
    (.error (classifyGhError owner repo prNumber e),
      [("gh pr view ") ++ toString prNumber ++ (" --repo ") ++ owner ++ ("/") ++ repo
        ++ (" --json ") ++ (",").intercalate (ghJsonFields includeReviews)])
  | .ok ghData =>
    (.ok { transformGhPrData ghData owner repo with
        reviewComments :=
          match cli.pullsComments with
          | .ok rcs => rcs.map mapGhRawRC
          | .error _ => [] },
      [("gh pr view ") ++ toString prNumber ++ (" --repo ") ++ owner ++ ("/") ++ repo
        ++ (" --json ") ++ (",").intercalate (ghJsonFields includeReviews),
       ("gh api repos/") ++ owner ++ ("/") ++ repo ++ ("/pulls/")
        ++ toString prNumber ++ ("/comments")])

/-- The options record both loaders receive; `loadPullRequestWithGh`
destructures only `owner`, `repo`, `prNumber` and `includeReviews` from it. -/
structure LoadOptions where
  owner : String
  repo : String
  prNumber : Nat
  token : String
  includeReviews : Bool
  deriving DecidableEq, Repr

/-- Embedding of `loadPullRequestWithGh` (backends lines 184-295): reads only the four
non-credential fields of its options. -/
def loadPullRequestWithGh (cli : GhCli) (options : LoadOptions) :
    Except String Dataset × List String :=
  ghLoadCore cli options.owner options.repo options.prNumber options.includeReviews

/-- An Octokit request error (`error.status`). -/
structure ApiError where
  status : Option Nat
  message : String
  deriving DecidableEq, Repr

/-- The Octokit REST client, abstracted: one oracle per resource category.
The API adapter maps each response verbatim into the canonical shape, so the
oracles already carry canonical types. -/
structure OctoKit where
  pullsGet : Except ApiError PrData
  listFiles : Except ApiError (List FileEntry)
  listComments : Except ApiError (List CommentEntry)
  listReviewComments : Except ApiError (List ReviewCommentEntry)
  listReviews : Except ApiError (List ReviewEntry)
  listCommits : Except ApiError (List CommitEntry)

/-- Error classification of the API adapter's catch block (backends
lines 378-388). -/
def classifyApiError (owner repo : String) (prNumber : Nat) (e : ApiError) : String :=
  if e.status == some 404 then
    ("Pull request not found: ") ++ owner ++ ("/") ++ repo ++ ("#") ++ toString prNumber
  else if e.status == some 401 then
    ("Authentication failed. Please provide a valid GitHub token")
  else
    ("Failed to fetch pull request via API: ") ++ e.message

/-- Embedding of `loadPullRequestWithApi` (backends lines 307-389): one request per
resource category in source order, with `listReviews` issued only when
`includeReviews` is set (otherwise `reviews` is the empty sequence).  Returns
the result and the log of requests issued, in order. -/
def loadPullRequestWithApi (oc : OctoKit) (options : LoadOptions) :
    Except String Dataset × List String :=
  match oc.pullsGet with
  | .error e => (.error (classifyApiError options.owner options.repo options.prNumber e),
      [("pulls.get")])
  | .ok pr =>
    match oc.listFiles with
    | .error e => (.error (classifyApiError options.owner options.repo options.prNumber e),
        [("pulls.get"), ("pulls.listFiles")])
    | .ok files =>
      match oc.listComments with
      | .error e => (.error (classifyApiError options.owner options.repo options.prNumber e),
          [("pulls.get"), ("pulls.listFiles"), ("issues.listComments")])
      | .ok comments =>
        match oc.listReviewComments with
        | .error e => (.error (classifyApiError options.owner options.repo options.prNumber e),
            [("pulls.get"), ("pulls.listFiles"), ("issues.listComments"),
             ("pulls.listReviewComments")])
        | .ok reviewComments =>
          if options.includeReviews then
            match oc.listReviews with
            | .error e => (.error (classifyApiError options.owner options.repo options.prNumber e),
                [("pulls.get"), ("pulls.listFiles"), ("issues.listComments"),
                 ("pulls.listReviewComments"), ("pulls.listReviews")])
            | .ok reviews =>
              match oc.listCommits with
              | .error e => (.error (classifyApiError options.owner options.repo options.prNumber e),
                  [("pulls.get"), ("pulls.listFiles"), ("issues.listComments"),
                   ("pulls.listReviewComments"), ("pulls.listReviews"), ("pulls.listCommits")])
              | .ok commits =>
                (.ok ⟨pr, files, comments, reviewComments, reviews, commits⟩,
                  [("pulls.get"), ("pulls.listFiles"), ("issues.listComments"),
                   ("pulls.listReviewComments"), ("pulls.listReviews"), ("pulls.listCommits")])
          else
            match oc.listCommits with
            | .error e => (.error (classifyApiError options.owner options.repo options.prNumber e),
                [("pulls.get"), ("pulls.listFiles"), ("issues.listComments"),
                 ("pulls.listReviewComments"), ("pulls.listCommits")])
            | .ok commits =>
              (.ok ⟨pr, files, comments, reviewComments, [], commits⟩,
                [("pulls.get"), ("pulls.listFiles"), ("issues.listComments"),
                 ("pulls.listReviewComments"), ("pulls.listCommits")])

/-! ## Backend Selector (`loadPullRequest`, backends lines 404-495) -/

/-- Embedding of `loadPullRequest`: `forceApi` short-circuits to the API adapter; a forced
but missing CLI is a configuration error; an installed but unauthenticated
CLI either fails (under `forceGh`) or falls back to the API without
attempting the CLI adapter; an authenticated CLI is attempted and its
failure falls back to the API unless `forceGh`.  The second component is the
list of backend adapters attempted, in order. -/
def loadPullRequest (ghInstalled ghAuthenticated : Bool) (cli : GhCli) (oc : OctoKit)
    (options : LoadOptions) (forceApi forceGh : Bool) :
    Except String Dataset × List String :=
  if forceApi then ((loadPullRequestWithApi oc options).fst, [("api")])
  else if forceGh && !ghInstalled then
    (.error ("gh CLI is required but not installed. Please install GitHub CLI: https://cli.github.com/"),
      [])
  else if ghInstalled then
    if !ghAuthenticated then
      if forceGh then
        (.error ("gh CLI is not authenticated. Please run \x22gh auth login\x22"), [])
      else ((loadPullRequestWithApi oc options).fst, [("api")])
    else
      match loadPullRequestWithGh cli options with
      | (.ok d, _) => (.ok d, [("gh")])
      | (.error e, _) =>
        if !forceGh then ((loadPullRequestWithApi oc options).fst, [("gh"), ("api")])
        else (.error e, [("gh")])
  else ((loadPullRequestWithApi oc options).fst, [("api")])

/-- A concrete raw gh payload with no `reviews` field (not requested). -/
def sampleGhData : GhRawData :=
  { number := 1, title := ("t"), state := ("OPEN"), isDraft := false,
    body := (""), url := ("u"), author := ⟨("a")⟩, createdAt := 0, updatedAt := 0,
    mergedAt := none, closedAt := none, mergedBy := none,
    baseRefName := ("main"), baseRefOid := ("s1"), headRefName := ("h"),
    headRefOid := ("s2"), additions := 0, deletions := 0, changedFiles := 0,
    labels := none, assignees := none, reviewRequests := none, milestone := none,
    files := none, commits := none, comments := none, reviews := none }

/-- A concrete canonical `pr` object. -/
def samplePrData : PrData :=
  { number := 1, title := ("t"), state := ("open"), draft := false,
    merged := false, htmlUrl := ("u"), userLogin := ("a"), createdAt := 0,
    updatedAt := 0, mergedAt := none, closedAt := none, mergedByLogin := none,
    baseRef := ("main"), baseSha := ("s1"), headRef := ("h"), headSha := ("s2"),
    additions := 0, deletions := 0, changedFiles := 0, labels := [],
    assignees := [], requestedReviewers := [], milestone := none, body := ("") }

/-- A concrete CLI oracle honouring the gh contract (no requested field, no data). -/
def sampleCli : GhCli := ⟨fun _ => .ok sampleGhData, .error ("boom")⟩

/-- A concrete Octokit oracle. -/
def sampleOcto : OctoKit :=
  ⟨.ok samplePrData, .ok [], .ok [], .ok [], .ok [], .ok []⟩

/-- Concrete load options with `includeReviews = false`. -/
def sampleOptionsNoReviews : LoadOptions := ⟨("o"), ("r"), 1, (""), false⟩

/-- A concrete comment at timestamp 10. -/
def sampleComment : CommentEntry := ⟨1, ("alice"), ("hi"), 10⟩

/-- A concrete review submitted at timestamp 5. -/
def sampleReview : ReviewEntry := ⟨2, ("bob"), ("APPROVED"), (""), some 5⟩

/-- A concrete pending review. -/
def samplePendingReview : ReviewEntry := ⟨3, ("eve"), ("PENDING"), (""), none⟩

/-- Network oracle for the duplicate-URL scenario: every request returns one
PNG payload. -/
def c2world : String → List (String × String) → HttpResponse :=
  fun _ _ => ⟨200, none, [0x89, 0x50, 0x4e, 0x47, 1]⟩

/-- URL oracle for the duplicate-URL scenario. -/
def c2parse : String → Option JsUrl :=
  fun u => if u = ("http://host/a.png") then some ⟨("host"), ("/a.png")⟩ else none

/-- Dataset for the cross-block counter collision: one image in the PR body,
one image in a comment body. -/
def c1Dataset : Dataset :=
  { pr := { samplePrData with body := ("![a](http://h/a.png)") }
    files := []
    comments := [⟨7, ("carol"), ("![b](http://h/b.png)"), 1⟩]
    reviewComments := []
    reviews := []
    commits := [] }

/-- Network oracle serving distinct PNG payloads for the two URLs. -/
def c1world : String → List (String × String) → HttpResponse :=
  fun url _ =>
    if url = ("http://h/a.png") then ⟨200, none, [0x89, 0x50, 0x4e, 0x47, 1]⟩
    else ⟨200, none, [0x89, 0x50, 0x4e, 0x47, 2]⟩

/-- URL oracle for the cross-block scenario. -/
def c1parse : String → Option JsUrl :=
  fun u =>
    if u = ("http://h/a.png") then some ⟨("h"), ("/a.png")⟩
    else if u = ("http://h/b.png") then some ⟨("h"), ("/b.png")⟩
    else none

/-! ## Theorems -/

theorem stripLit_append (p rest : List Char) : stripLit p (p ++ rest) = some rest := by
  induction p with
  | nil => rfl
  | cons c cs ih => simp [stripLit, ih]

theorem stripLit_eq_append {pat l rest : List Char} (h : stripLit pat l = some rest) :
    l = pat ++ rest := by
  induction pat generalizing l with
  | nil => simpa [stripLit] using h
  | cons p ps ih =>
    cases l with
    | nil => simp [stripLit] at h
    | cons c cs =>
      by_cases hpc : p == c
      · have hc : p = c := by simpa using hpc
        subst hc
        simp only [stripLit, beq_self_eq_true, if_true] at h
        simp [ih h]
      · simp [stripLit, hpc] at h

theorem listContains_of_infix (pre pat suf : List Char) :
    listContains (pre ++ (pat ++ suf)) pat = true := by
  induction pre with
  | nil =>
    cases pat with
    | nil => cases suf <;> simp [listContains, stripLit]
    | cons p ps =>
      have h : stripLit (p :: ps) (p :: (ps ++ suf)) = some suf :=
        stripLit_append (p :: ps) suf
      simp [listContains, h]
  | cons c t ih =>
    simp only [List.cons_append, listContains, List.append_eq]
    rw [ih]
    simp

/-! take/drop-while helpers used to evaluate greedy character classes. -/

theorem takeWhile_append_of_not {p : Char → Bool} (l : List Char) (x : Char)
    (rest : List Char) (hl : ∀ c ∈ l, p c = true) (hx : p x = false) :
    (l ++ x :: rest).takeWhile p = l := by
  induction l with
  | nil => simp [List.takeWhile, hx]
  | cons c t ih =>
    have hc : p c = true := hl c (by simp)
    simp only [List.cons_append, List.takeWhile, hc]
    simp [ih fun d hd => hl d (by simp [hd])]

theorem dropWhile_append_of_not {p : Char → Bool} (l : List Char) (x : Char)
    (rest : List Char) (hl : ∀ c ∈ l, p c = true) (hx : p x = false) :
    (l ++ x :: rest).dropWhile p = x :: rest := by
  induction l with
  | nil => simp [List.dropWhile, hx]
  | cons c t ih =>
    have hc : p c = true := hl c (by simp)
    simp only [List.cons_append, List.dropWhile, hc]
    simp [ih fun d hd => hl d (by simp [hd])]

theorem takeWhile_all {p : Char → Bool} (l : List Char) (hl : ∀ c ∈ l, p c = true) :
    l.takeWhile p = l := by
  induction l with
  | nil => rfl
  | cons c t ih =>
    have hc : p c = true := hl c (by simp)
    simp [List.takeWhile, hc, ih fun d hd => hl d (by simp [hd])]

theorem dropWhile_all {p : Char → Bool} (l : List Char) (hl : ∀ c ∈ l, p c = true) :
    l.dropWhile p = [] := by
  induction l with
  | nil => rfl
  | cons c t ih =>
    have hc : p c = true := hl c (by simp)
    simp [List.dropWhile, hc, ih fun d hd => hl d (by simp [hd])]

/-! ## C3 support lemmas -/

theorem string_data_ne_nil {s : String} (h : s ≠ ("")) : s.data ≠ [] := by
  intro hd
  apply h
  cases s
  cases hd
  rfl

theorem ghParse_pull_infix {l : List Char} {res : List Char × List Char × List Char}
    (h : ghParse l = some res) : ∃ pre suf, l = pre ++ (pullLit ++ suf) := by
  unfold ghParse at h
  split at h
  · exact absurd h (by simp)
  · split at h
    case _ l2 heq =>
      split at h
      · exact absurd h (by simp)
      · split at h
        case _ l4 hstrip =>
          have h3 := stripLit_eq_append hstrip
          refine ⟨l.takeWhile (fun c => c != '/') ++
            '/' :: l2.takeWhile (fun c => c != '/'), l4, ?_⟩
          conv_lhs => rw [← List.takeWhile_append_dropWhile (p := fun c => c != '/') (l := l)]
          rw [heq]
          conv_lhs => rw [← List.takeWhile_append_dropWhile (p := fun c => c != '/') (l := l2)]
          rw [h3]
          simp
        case _ => exact absurd h (by simp)
    case _ => exact absurd h (by simp)

theorem ghFind_pull_infix {l : List Char} {res : List Char × List Char × List Char}
    (h : ghFind l = some res) : ∃ pre suf, l = pre ++ (pullLit ++ suf) := by
  induction l with
  | nil => simp [ghFind] at h
  | cons c t ih =>
    rw [ghFind] at h
    split at h
    case _ r heq =>
      unfold ghTryHere at heq
      split at heq
      case _ rest hstrip =>
        obtain ⟨pre, suf, hp⟩ := ghParse_pull_infix heq
        refine ⟨ghLit ++ pre, suf, ?_⟩
        rw [stripLit_eq_append hstrip, hp]
        simp
      case _ => exact absurd heq (by simp)
    case _ heq =>
      obtain ⟨pre, suf, hp⟩ := ih h
      exact ⟨c :: pre, suf, by rw [hp]; rfl⟩

theorem ghFind_contains_pull {l : List Char} {res : List Char × List Char × List Char}
    (h : ghFind l = some res) : listContains l pullLit = true := by
  obtain ⟨pre, suf, hp⟩ := ghFind_pull_infix h
  rw [hp]
  exact listContains_of_infix pre pullLit suf

theorem shortMatch_has_hash {l : List Char} {res : List Char × List Char × List Char}
    (h : shortMatch l = some res) : '#' ∈ l := by
  unfold shortMatch at h
  split at h
  · exact absurd h (by simp)
  · split at h
    case _ l2 heq =>
      split at h
      · exact absurd h (by simp)
      · split at h
        case _ l4 heq3 =>
          have h2 : '#' ∈ l2 := by
            conv_lhs =>
              rw [← List.takeWhile_append_dropWhile
                (p := fun c => c != '#' && c != '/') (l := l2)]
            rw [heq3]
            simp
          have h1 : '#' ∈ l := by
            conv_lhs =>
              rw [← List.takeWhile_append_dropWhile (p := fun c => c != '/') (l := l)]
            rw [heq]
            simp [h2]
          exact h1
        case _ => exact absurd h (by simp)
    case _ => exact absurd h (by simp)

theorem ghFind_cons_of_ne (c : Char) (t : List Char) (hc : c ≠ 'g') :
    ghFind (c :: t) = ghFind t := by
  have hgc : ('g' == c) = false := beq_eq_false_iff_ne.mpr (fun e => hc e.symm)
  have h : ghTryHere (c :: t) = none := by
    unfold ghTryHere
    have hlit : ghLit = 'g' :: ("ithub.com/").data := rfl
    rw [hlit]
    simp [stripLit, hgc]
  simp [ghFind, h]

theorem ghFind_append_lit (rest : List Char) {res : List Char × List Char × List Char}
    (h : ghParse rest = some res) : ghFind (ghLit ++ rest) = some res := by
  have h1 : ghLit ++ rest = 'g' :: (("ithub.com/").data ++ rest) := rfl
  have h2 : ghTryHere ('g' :: (("ithub.com/").data ++ rest)) = some res := by
    unfold ghTryHere
    rw [← h1, stripLit_append]
    exact h
  rw [h1, ghFind, h2]

theorem ghParse_full (o r n : List Char) (ho : o ≠ []) (ho2 : ∀ c ∈ o, (c != '/') = true)
    (hr : r ≠ []) (hr2 : ∀ c ∈ r, (c != '/') = true)
    (hn : n ≠ []) (hn2 : ∀ c ∈ n, c.isDigit = true) :
    ghParse (o ++ '/' :: (r ++ pullLit ++ n)) = some (o, r, n) := by
  have hassoc : r ++ pullLit ++ n = r ++ '/' :: (("pull/").data ++ n) := by
    simp [pullLit]
  have h1 : (o ++ '/' :: (r ++ pullLit ++ n)).takeWhile (fun c => c != '/') = o :=
    takeWhile_append_of_not o '/' _ ho2 (by decide)
  have h2 : (o ++ '/' :: (r ++ pullLit ++ n)).dropWhile (fun c => c != '/')
      = '/' :: (r ++ pullLit ++ n) :=
    dropWhile_append_of_not o '/' _ ho2 (by decide)
  have h3 : (r ++ pullLit ++ n).takeWhile (fun c => c != '/') = r := by
    rw [hassoc]
    exact takeWhile_append_of_not r '/' _ hr2 (by decide)
  have h4 : (r ++ pullLit ++ n).dropWhile (fun c => c != '/') = pullLit ++ n := by
    rw [hassoc]
    exact dropWhile_append_of_not r '/' _ hr2 (by decide)
  have h5 := stripLit_append pullLit n
  have h6 := takeWhile_all n hn2
  simp only [ghParse, h1, h2, h3, h4, h5, h6, List.isEmpty_iff, ho, hr, hn,
    ite_false, if_false]

/-- C3 (amended). For every full URL `https://github.com/<o>/<r>/pull/<n>`
(`o`, `r` non-empty and slash-free, `n` a non-empty digit run), `parsePrUrl`
returns `{owner := o, repo := r, prNumber := n}`; and every string that
contains no `#` character, no `/pull/` segment, and does not match the
`owner/repo/<digits>` shorthand parses to `null`. -/
theorem claim_C3_amended :
    (∀ o r n : List Char, o ≠ [] → (∀ c ∈ o, (c != '/') = true) →
      r ≠ [] → (∀ c ∈ r, (c != '/') = true) →
      n ≠ [] → (∀ c ∈ n, c.isDigit = true) →
      parsePrUrl (String.mk (("https://github.com/").data ++ o ++ '/' :: (r ++ pullLit ++ n)))
        = some ⟨String.mk o, String.mk r, digitsToNat n⟩) ∧
    (∀ s : String, '#' ∉ s.data → listContains s.data pullLit = false →
      altMatch s.data = none → parsePrUrl s = none) := by
  constructor
  · intro o r n ho ho2 hr hr2 hn hn2
    have hfull : ("https://github.com/").data ++ o ++ '/' :: (r ++ pullLit ++ n)
        = 'h' :: 't' :: 't' :: 'p' :: 's' :: ':' :: '/' :: '/' ::
          (ghLit ++ (o ++ '/' :: (r ++ pullLit ++ n))) := rfl
    have hfind : ghFind (("https://github.com/").data ++ o ++ '/' :: (r ++ pullLit ++ n))
        = some (o, r, n) := by
      rw [hfull]
      rw [ghFind_cons_of_ne 'h' _ (by decide)]
      rw [ghFind_cons_of_ne 't' _ (by decide)]
      rw [ghFind_cons_of_ne 't' _ (by decide)]
      rw [ghFind_cons_of_ne 'p' _ (by decide)]
      rw [ghFind_cons_of_ne 's' _ (by decide)]
      rw [ghFind_cons_of_ne ':' _ (by decide)]
      rw [ghFind_cons_of_ne '/' _ (by decide)]
      rw [ghFind_cons_of_ne '/' _ (by decide)]
      exact ghFind_append_lit _ (ghParse_full o r n ho ho2 hr hr2 hn hn2)
    unfold parsePrUrl
    rw [show (String.mk (("https://github.com/").data ++ o ++ '/' :: (r ++ pullLit ++ n))).data
      = ("https://github.com/").data ++ o ++ '/' :: (r ++ pullLit ++ n) from rfl]
    rw [hfind]
  · intro s h1 h2 h3
    cases hg : ghFind s.data with
    | some res => exact absurd (ghFind_contains_pull hg) (by simp [h2])
    | none =>
      cases hs : shortMatch s.data with
      | some res => exact absurd (shortMatch_has_hash hs) h1
      | none => simp [parsePrUrl, hg, hs, h3]

/-- C3 counterexample: the string `a/b/123` contains neither a `#` character
nor a `/pull/` segment, yet `parsePrUrl` returns a parse (via the third
shorthand), refuting the claim that all such strings map to `null`. -/
theorem claim_C3_counterexample :
    parsePrUrl ("a/b/123") = some ⟨("a"), ("b"), 123⟩ ∧
    '#' ∉ ("a/b/123").data ∧
    listContains (("a/b/123").data) pullLit = false := by decide

/-- C3 witness: the amended theorem applied at a concrete full URL and a
concrete non-matching string. -/
theorem claim_C3_witness :
    parsePrUrl (String.mk (("https://github.com/").data ++ ("octocat").data ++
        '/' :: (("hello").data ++ pullLit ++ ("42").data)))
      = some ⟨String.mk (("octocat").data), String.mk (("hello").data),
          digitsToNat (("42").data)⟩ ∧
    parsePrUrl ("nohashnopull") = none :=
  ⟨claim_C3_amended.1 (("octocat").data) (("hello").data) (("42").data)
      (by decide) (by decide) (by decide) (by decide) (by decide) (by decide),
    claim_C3_amended.2 ("nohashnopull") (by decide) (by decide) (by decide)⟩

/-! ## Claim theorems: asset fetcher and adapters -/

/-- C6 (amended).  For any response to an asset fetch that is not a redirect:
status 200 succeeds with the full body, and any status other than 200 fails
with `HTTP <code>`.  (The source accepts only 200, not all of 2xx.) -/
theorem claim_C6_amended (parseUrl : String → Option JsUrl)
    (world : String → List (String × String) → HttpResponse)
    (token url : String) (fuel : Nat) (u : JsUrl)
    (hfuel : 0 < fuel) (hparse : parseUrl url = some u)
    (hnored : isRedirect (world url (downloadHeaders u.hostname token)) = false) :
    ((world url (downloadHeaders u.hostname token)).statusCode = 200 →
      downloadFile parseUrl world token url fuel
        = .ok (world url (downloadHeaders u.hostname token)).body) ∧
    ((world url (downloadHeaders u.hostname token)).statusCode ≠ 200 →
      downloadFile parseUrl world token url fuel
        = .error (("HTTP ") ++ toString (world url (downloadHeaders u.hostname token)).statusCode)) := by
  obtain ⟨f, rfl⟩ : ∃ f, fuel = f + 1 := ⟨fuel - 1, (Nat.succ_pred_eq_of_pos hfuel).symm⟩
  constructor
  · intro h200
    simp [downloadFile, hparse, hnored, h200]
  · intro hne
    simp [downloadFile, hparse, hnored, hne]

/-- C6 counterexample.  A 201 response is 2xx and carries a body, yet the
fetch fails with `HTTP 201`, refuting the claim that every non-redirect 2xx
status succeeds. -/
theorem claim_C6_counterexample :
    downloadFile (fun _ => some ⟨("cdn.example"), ("/a")⟩)
        (fun _ _ => ⟨201, none, [7]⟩) ("") ("http://cdn.example/a") 5
      = .error ("HTTP 201") ∧
    200 ≤ 201 ∧ 201 < 300 ∧ isRedirect ⟨201, none, [7]⟩ = false := by
  refine ⟨?_, by decide, by decide, by decide⟩
  rfl

/-- C6 witness: the amended theorem applied at a concrete 200 response and a
concrete 404 response. -/
theorem claim_C6_witness :
    downloadFile (fun _ => some ⟨("cdn.example"), ("/a")⟩)
        (fun _ _ => ⟨200, none, [1, 2]⟩) ("") ("http://cdn.example/a") 5
      = .ok [1, 2] ∧
    downloadFile (fun _ => some ⟨("cdn.example"), ("/a")⟩)
        (fun _ _ => ⟨404, none, []⟩) ("") ("http://cdn.example/a") 5
      = .error (("HTTP ") ++ toString 404) :=
  ⟨(claim_C6_amended (fun _ => some ⟨("cdn.example"), ("/a")⟩)
      (fun _ _ => ⟨200, none, [1, 2]⟩) ("") ("http://cdn.example/a") 5
      ⟨("cdn.example"), ("/a")⟩ (by decide) rfl (by decide)).1 rfl,
    (claim_C6_amended (fun _ => some ⟨("cdn.example"), ("/a")⟩)
      (fun _ _ => ⟨404, none, []⟩) ("") ("http://cdn.example/a") 5
      ⟨("cdn.example"), ("/a")⟩ (by decide) rfl (by decide)).2 (by decide)⟩

/-- C7.  A request's headers carry an `Authorization` entry exactly when a
credential is supplied (truthy token) and the URL's hostname contains the
literal substring `github`; hosts without `github` never receive the
credential. -/
theorem claim_C7_auth_header (hostname token : String) :
    ((∃ v, (("Authorization"), v) ∈ downloadHeaders hostname token) ↔
      (token ≠ ("") ∧ listContains hostname.data (("github").data) = true)) ∧
    (listContains hostname.data (("github").data) = false →
      ∀ v, (("Authorization"), v) ∉ downloadHeaders hostname token) := by
  have hmain : (∃ v, (("Authorization"), v) ∈ downloadHeaders hostname token) ↔
      (token ≠ ("") ∧ listContains hostname.data (("github").data) = true) := by
    constructor
    · rintro ⟨v, hv⟩
      unfold downloadHeaders at hv
      by_cases hc : (token != ("") && listContains hostname.data (("github").data)) = true
      · simpa [bne_iff_ne] using hc
      · rw [if_neg hc] at hv
        simp at hv
    · rintro ⟨h1, h2⟩
      refine ⟨("token ") ++ token, ?_⟩
      unfold downloadHeaders
      have hc : (token != ("") && listContains hostname.data (("github").data)) = true := by
        simp [bne_iff_ne, h1, h2]
      simp [hc]
  refine ⟨hmain, fun hng v hv => ?_⟩
  have h := (hmain.mp ⟨v, hv⟩).2
  rw [hng] at h
  exact absurd h (by decide)

/-- C8.  With the CLI installed (`ghInstalled = true`) but unauthenticated
(`ghAuthenticated = false`) and `forceApi = false`: under `forceGh` the load
fails with the authentication error; otherwise the selector returns the API
adapter's result and the CLI adapter is never attempted. -/
theorem claim_C8_selector (cli : GhCli) (oc : OctoKit) (options : LoadOptions) :
    (loadPullRequest true false cli oc options false true
      = (.error ("gh CLI is not authenticated. Please run \x22gh auth login\x22"), [])) ∧
    (loadPullRequest true false cli oc options false false
      = ((loadPullRequestWithApi oc options).fst, [("api")])) ∧
    (("gh") ∉ (loadPullRequest true false cli oc options false false).snd) := by
  refine ⟨rfl, rfl, ?_⟩
  show ("gh") ∉ [("api")]
  decide

/-- C10.  The CLI-backed adapter never reads the token option: for any two
token values and the same external-tool responses, both the issued `gh`
commands and the returned dataset are identical. -/
theorem claim_C10_token_independence (cli : GhCli) (options : LoadOptions)
    (t1 t2 : String) :
    loadPullRequestWithGh cli { options with token := t1 }
      = loadPullRequestWithGh cli { options with token := t2 } := by
  cases options
  rfl

/-- C5.  With `includeReviews = false`, both adapters omit review retrieval
entirely — the CLI adapter does not request the `reviews` JSON field and the
API adapter never issues `pulls.listReviews` — and any dataset either
returns has an empty `reviews` sequence.  The `hcli` hypothesis is the
external tool's contract: a field not requested is absent from its JSON. -/
theorem claim_C5_include_reviews_false (cli : GhCli) (oc : OctoKit)
    (options : LoadOptions)
    (hcli : ∀ fields, ("reviews") ∉ fields →
      ∀ d, cli.prView fields = .ok d → d.reviews = none)
    (hinc : options.includeReviews = false) :
    (("reviews") ∉ ghJsonFields false) ∧
    (∀ ds, (loadPullRequestWithGh cli options).fst = .ok ds → ds.reviews = []) ∧
    (("pulls.listReviews") ∉ (loadPullRequestWithApi oc options).snd) ∧
    (∀ ds, (loadPullRequestWithApi oc options).fst = .ok ds → ds.reviews = []) := by
  refine ⟨by decide, ?_, ?_, ?_⟩
  · intro ds hds
    unfold loadPullRequestWithGh ghLoadCore at hds
    rw [hinc] at hds
    cases hview : cli.prView (ghJsonFields false) with
    | error e => rw [hview] at hds; simp at hds
    | ok d =>
      rw [hview] at hds
      simp only [] at hds
      have hrev : d.reviews = none := hcli (ghJsonFields false) (by decide) d hview
      have hds' := Except.ok.inj hds
      rw [← hds']
      simp [transformGhPrData, hrev]
  · unfold loadPullRequestWithApi
    rw [hinc]
    rcases oc.pullsGet with e | pr
    · exact (by decide : ("pulls.listReviews") ∉ [("pulls.get")])
    · rcases oc.listFiles with e | files
      · exact (by decide : ("pulls.listReviews") ∉ [("pulls.get"), ("pulls.listFiles")])
      · rcases oc.listComments with e | comments
        · exact (by decide : ("pulls.listReviews")
            ∉ [("pulls.get"), ("pulls.listFiles"), ("issues.listComments")])
        · rcases oc.listReviewComments with e | rcs
          · exact (by decide : ("pulls.listReviews")
              ∉ [("pulls.get"), ("pulls.listFiles"), ("issues.listComments"),
                ("pulls.listReviewComments")])
          · rcases oc.listCommits with e | commits
            · exact (by decide : ("pulls.listReviews")
                ∉ [("pulls.get"), ("pulls.listFiles"), ("issues.listComments"),
                  ("pulls.listReviewComments"), ("pulls.listCommits")])
            · exact (by decide : ("pulls.listReviews")
                ∉ [("pulls.get"), ("pulls.listFiles"), ("issues.listComments"),
                  ("pulls.listReviewComments"), ("pulls.listCommits")])
  · intro ds hds
    unfold loadPullRequestWithApi at hds
    rw [hinc] at hds
    cases h1 : oc.pullsGet with
    | error e => rw [h1] at hds; simp at hds
    | ok pr =>
      rw [h1] at hds
      cases h2 : oc.listFiles with
      | error e => rw [h2] at hds; simp at hds
      | ok files =>
        rw [h2] at hds
        cases h3 : oc.listComments with
        | error e => rw [h3] at hds; simp at hds
        | ok comments =>
          rw [h3] at hds
          cases h4 : oc.listReviewComments with
          | error e => rw [h4] at hds; simp at hds
          | ok rcs =>
            rw [h4] at hds
            cases h5 : oc.listCommits with
            | error e =>
              rw [h5] at hds
              simp at hds
            | ok commits =>
              rw [h5] at hds
              simp only [Bool.false_eq_true, if_false] at hds
              rw [← Except.ok.inj hds]

/-- C5 witness: the theorem applied to the concrete oracles above. -/
theorem claim_C5_witness :
    (("reviews") ∉ ghJsonFields false) ∧
    (∀ ds, (loadPullRequestWithGh sampleCli sampleOptionsNoReviews).fst = .ok ds →
      ds.reviews = []) ∧
    (("pulls.listReviews") ∉ (loadPullRequestWithApi sampleOcto sampleOptionsNoReviews).snd) ∧
    (∀ ds, (loadPullRequestWithApi sampleOcto sampleOptionsNoReviews).fst = .ok ds →
      ds.reviews = []) :=
  claim_C5_include_reviews_false sampleCli sampleOcto sampleOptionsNoReviews
    (fun _ _ d hd => by
      rw [show sampleCli.prView _ = .ok sampleGhData from rfl] at hd
      rw [← Except.ok.inj hd]
      rfl)
    rfl

/-- C4.  In the rendered Conversation timeline: every comment and every
submitted review appears; any review timestamped strictly earlier than a
comment appears strictly before it (the sort is ascending by timestamp and a
permutation of the tagged events); and a pending review (null
`submitted_at`) never appears. -/
theorem claim_C4_timeline (comments : List CommentEntry) (reviews : List ReviewEntry)
    (c : CommentEntry) (r : ReviewEntry) (t2 : Int)
    (hc : c ∈ comments) (hr : r ∈ reviews) (hs : r.submittedAt = some t2)
    (hlt : t2 < c.createdAt) :
    (TLEvent.review r ∈ conversationTimeline comments reviews) ∧
    (TLEvent.comment c ∈ conversationTimeline comments reviews) ∧
    (∀ i j, (conversationTimeline comments reviews).get? i = some (TLEvent.review r) →
      (conversationTimeline comments reviews).get? j = some (TLEvent.comment c) →
      i < j) ∧
    (∀ p ∈ reviews, p.submittedAt = none →
      TLEvent.review p ∉ conversationTimeline comments reviews) := by
  have hperm : (conversationTimeline comments reviews).Perm (buildTimeline comments reviews) :=
    List.perm_insertionSort tlLE (buildTimeline comments reviews)
  have hsorted : List.Sorted tlLE (conversationTimeline comments reviews) :=
    List.sorted_insertionSort tlLE (buildTimeline comments reviews)
  refine ⟨?_, ?_, ?_, ?_⟩
  · rw [hperm.mem_iff]
    unfold buildTimeline
    refine List.mem_append_right _ (List.mem_map_of_mem _ ?_)
    rw [List.mem_filter]
    exact ⟨hr, by rw [hs]; rfl⟩
  · rw [hperm.mem_iff]
    unfold buildTimeline
    exact List.mem_append_left _ (List.mem_map_of_mem _ hc)
  · intro i j hi hj
    by_contra hij
    have hji : j ≤ i := Nat.le_of_not_lt hij
    obtain ⟨hilen, hig⟩ := List.get?_eq_some.mp hi
    obtain ⟨hjlen, hjg⟩ := List.get?_eq_some.mp hj
    rcases Nat.lt_or_ge j i with hjlt | hige
    · have hrel := hsorted.rel_get_of_lt
        (a := ⟨j, hjlen⟩) (b := ⟨i, hilen⟩) (Fin.mk_lt_mk.mpr hjlt)
      rw [hjg, hig] at hrel
      simp only [tlLE, TLEvent.timestamp] at hrel
      rw [hs] at hrel
      simp at hrel
      exact absurd hlt (not_lt.mpr hrel)
    · have heq : j = i := Nat.le_antisymm hji hige
      subst heq
      have : TLEvent.review r = TLEvent.comment c := by rw [← hig, ← hjg]
      exact absurd this (by simp)
  · intro p hp hpn hmem
    rw [hperm.mem_iff] at hmem
    unfold buildTimeline at hmem
    rcases List.mem_append.mp hmem with hm | hm
    · obtain ⟨c', hc', heq⟩ := List.mem_map.mp hm
      simp at heq
    · obtain ⟨r', hr', heq⟩ := List.mem_map.mp hm
      obtain rfl := TLEvent.review.inj heq
      rw [List.mem_filter] at hr'
      have h2 := hr'.2
      rw [hpn] at h2
      exact absurd h2 (by decide)

/-- C4 witness: the theorem applied at one comment (t=10), one submitted
review (t=5) and one pending review. -/
theorem claim_C4_witness :
    (TLEvent.review sampleReview
      ∈ conversationTimeline [sampleComment] [sampleReview, samplePendingReview]) ∧
    (TLEvent.comment sampleComment
      ∈ conversationTimeline [sampleComment] [sampleReview, samplePendingReview]) ∧
    (∀ i j, (conversationTimeline [sampleComment] [sampleReview, samplePendingReview]).get? i
        = some (TLEvent.review sampleReview) →
      (conversationTimeline [sampleComment] [sampleReview, samplePendingReview]).get? j
        = some (TLEvent.comment sampleComment) → i < j) ∧
    (∀ p ∈ [sampleReview, samplePendingReview], p.submittedAt = none →
      TLEvent.review p ∉ conversationTimeline [sampleComment] [sampleReview, samplePendingReview]) :=
  claim_C4_timeline [sampleComment] [sampleReview, samplePendingReview]
    sampleComment sampleReview 5 (by decide) (by decide) rfl (by decide)

theorem stripLit_isSome_of_append {l : List Char} (a b : List Char)
    (h : (stripLit (a ++ b) l).isSome = true) : (stripLit a l).isSome = true := by
  obtain ⟨rest, hrest⟩ := Option.isSome_iff_exists.mp h
  rw [stripLit_eq_append hrest, List.append_assoc, stripLit_append]
  rfl

theorem downloadImagesLoop_all_error (parseUrl : String → Option JsUrl)
    (world : String → List (String × String) → HttpResponse)
    (imagesDir token : String) (entries : List ImgRef) (content : String)
    (counter : Nat) (records : List ImgRecord) (writes : List (String × List Nat))
    (hall : ∀ e ∈ entries, ∃ msg, downloadFile parseUrl world token e.url 5 = .error msg) :
    downloadImagesLoop parseUrl world imagesDir token entries content counter records writes
      = ⟨content, records.reverse, writes.reverse⟩ := by
  induction entries generalizing content counter records writes with
  | nil => rfl
  | cons e rest ih =>
    obtain ⟨msg, hmsg⟩ := hall e (by simp)
    rw [downloadImagesLoop, hmsg]
    exact ih content counter records writes fun x hx => hall x (by simp [hx])

/-- C9.  Image localization is idempotent: on a body whose image references
all point at relative `./images/...` paths (an already-rewritten body), the
pass performs zero downloads — no Downloaded Image Records, no file writes —
and returns the text unchanged, for every network oracle.  The `hparse`
hypothesis is the JS `URL` constructor contract: a relative reference (no
scheme) throws. -/
theorem claim_C9_idempotent (parseUrl : String → Option JsUrl)
    (world : String → List (String × String) → HttpResponse)
    (content imagesDir token : String)
    (hrel : ∀ e ∈ extractMarkdownImageUrls content,
      (stripLit (("./images/")).data e.url.data).isSome = true)
    (hparse : ∀ u : String, (stripLit (("./")).data u.data).isSome = true →
      parseUrl u = none) :
    downloadImages parseUrl world content imagesDir token = ⟨content, [], []⟩ := by
  unfold downloadImages
  by_cases hc : content = ("")
  · simp [hc]
  · rw [if_neg hc]
    cases hex : extractMarkdownImageUrls content with
    | nil => rfl
    | cons img rest =>
      apply downloadImagesLoop_all_error
      intro e he
      have he' : e ∈ extractMarkdownImageUrls content := by rw [hex]; exact he
      have h2 : (stripLit (("./")).data e.url.data).isSome = true :=
        stripLit_isSome_of_append (("./")).data (("images/")).data (hrel e he')
      have hp := hparse e.url h2
      refine ⟨("Invalid URL"), ?_⟩
      show downloadFile parseUrl world token e.url (4 + 1) = .error ("Invalid URL")
      rw [downloadFile, hp]

/-- C9 witness: the theorem applied at a concrete already-rewritten body and
a concrete URL oracle that rejects relative references. -/
theorem claim_C9_witness :
    downloadImages (fun _ => none) (fun _ _ => ⟨200, none, []⟩)
        ("before ![x](./images/image-1.png) after") ("imgs") ("")
      = ⟨("before ![x](./images/image-1.png) after"), [], []⟩ :=
  claim_C9_idempotent (fun _ => none) (fun _ _ => ⟨200, none, []⟩)
    ("before ![x](./images/image-1.png) after") ("imgs") ("")
    (by decide) (fun _ _ => rfl)

/-- C2 counterexample.  A text block containing the same image URL twice
produces TWO Downloaded Image Records (the URL is fetched once per
occurrence), refuting the claim that exactly one record is produced. -/
theorem claim_C2_counterexample :
    (downloadImages c2parse c2world
        ("![x](http://host/a.png) ![x](http://host/a.png)") ("imgs") ("")).downloadedImages.length
      = 2 := by decide

/-- C2 (amended).  Both occurrences are indeed replaced by the same
`./images/image-1.png`, but one Downloaded Image Record is produced per
occurrence: the second download is saved as the orphaned `image-2.png`,
whose relative path no longer appears in the text. -/
theorem claim_C2_amended :
    downloadImages c2parse c2world
        ("![x](http://host/a.png) ![x](http://host/a.png)") ("imgs") ("")
      = ⟨("![x](./images/image-1.png) ![x](./images/image-1.png)"),
         [⟨("http://host/a.png"), ("imgs/image-1.png"), ("./images/image-1.png"), ("png")⟩,
          ⟨("http://host/a.png"), ("imgs/image-2.png"), ("./images/image-2.png"), ("png")⟩],
         [(("imgs/image-1.png"), [0x89, 0x50, 0x4e, 0x47, 1]),
          (("imgs/image-2.png"), [0x89, 0x50, 0x4e, 0x47, 1])]⟩ := by decide

/-- C1.  The per-call `imageCounter` of `downloadImages` restarts at 1 for
every text block of the same render call, so the PR-body image and the
comment image are both named `image-1.png`: the two Downloaded Image Records
share the filename index, and the second file write targets the same path as
the first with different bytes, overwriting it. -/
theorem claim_C1_counter_collision :
    ((renderImagesPass c1parse c1world true ("imgs") ("") c1Dataset).downloadedImages.map
        ImgRecord.relativePath
      = [("./images/image-1.png"), ("./images/image-1.png")]) ∧
    ((renderImagesPass c1parse c1world true ("imgs") ("") c1Dataset).writes
      = [(("imgs/image-1.png"), [0x89, 0x50, 0x4e, 0x47, 1]),
         (("imgs/image-1.png"), [0x89, 0x50, 0x4e, 0x47, 2])]) ∧
    ([0x89, 0x50, 0x4e, 0x47, (1 : Nat)] ≠ [0x89, 0x50, 0x4e, 0x47, 2]) := by decide
